import Mathlib

/-!
Shallow embedding of the MarkdownMash session engine (src/server.js, session-keyed
version, and src/db.js) together with proofs of spec-conformance properties.

Timestamps are modelled as natural numbers of milliseconds (JS `Date.now()`).
JS `Math.round` / `Math.ceil` on exact integer data are modelled over `ℚ`.
JS objects used as maps are modelled as association lists in insertion order.
-/

namespace MarkdownMash

/-- One quiz question as produced by `parseQuizMarkdown`. -/
structure Question where
  id : ℕ
  text : String
  options : List String
  correctIndices : List ℕ
  timeLimit : ℕ
deriving DecidableEq

/-- A parsed quiz (immutable once a session is created). -/
structure Quiz where
  title : String
  questions : List Question
  totalScore : ℕ
  passingPercent : ℕ
deriving DecidableEq

/-- In-memory participant record inside a session
(`{ id, name, score, correctCount, answers, socketId }`). -/
structure Participant where
  id : String
  name : String
  score : ℕ
  correctCount : ℕ
  answers : List (ℕ × ℕ)
  socketId : Option String
deriving DecidableEq

/-- The `quizState` sub-object of a session. `currentQuestionIndex` starts at `-1`;
`questionEndTime` is `null` (here `none`) until a question is opened. -/
structure QuizState where
  isRunning : Bool
  currentQuestionIndex : ℤ
  questionEndTime : Option ℕ
  showingResults : Bool
deriving DecidableEq

/-- One in-memory session state held in `activeSessions`. -/
structure SessionState where
  id : ℕ
  code : String
  quiz : Quiz
  participants : List (String × Participant)
  quizState : QuizState
  questionStartTime : Option ℕ
deriving DecidableEq

/-- The participant-facing projection of a question
(`getQuestionForParticipants`): no `correctIndices` field exists at all. -/
structure ParticipantQuestion where
  id : ℕ
  text : String
  options : List String
  timeLimit : ℕ
deriving DecidableEq

/-- `getQuestionForParticipants(question)` from src/server.js. -/
def getQuestionForParticipants (q : Question) : ParticipantQuestion :=
  { id := q.id, text := q.text, options := q.options, timeLimit := q.timeLimit }

/-- Per-participant entry of the `participantResults` object built at question close. -/
structure PResult where
  yourAnswer : Option ℕ
  currentScore : ℤ
  correctCount : ℕ
deriving DecidableEq

/-- Result of `calculateStats`. An entry `none` in `counts` models a JS array hole
or `NaN` (produced by `stats[answer]++` on an out-of-range index). -/
structure Stats where
  counts : List (Option ℕ)
  totalAnswered : ℕ
  totalParticipants : ℕ
deriving DecidableEq

/-- JS `stats[i]++` on an array of (possibly `NaN`) numbers: in range it increments
(`undefined`/`NaN` stays `NaN`); past the end it extends the array with holes up to
index `i` and sets entry `i` to `NaN` (`undefined + 1`). -/
def jsIncrAt (l : List (Option ℕ)) (i : ℕ) : List (Option ℕ) :=
  if h : i < l.length then
    l.set i (match l.get ⟨i, h⟩ with
      | some n => some (n + 1)
      | none => none)
  else
    l ++ List.replicate (i - l.length) none ++ [none]

/-- `quiz.questions.find(q => q.id === questionId)`. -/
def findQuestion (qs : List Question) (qid : ℕ) : Option Question :=
  qs.find? (fun q => q.id == qid)

/-- The fold over `Object.values(session.participants)` inside `calculateStats`. -/
def statsFold (qid : ℕ) (ps : List (String × Participant)) (acc : List (Option ℕ) × ℕ) :
    List (Option ℕ) × ℕ :=
  ps.foldl (fun acc kv =>
    match List.lookup qid kv.2.answers with
    | some a => (jsIncrAt acc.1 a, acc.2 + 1)
    | none => acc) acc

/-- The stats record built by `calculateStats` once the question is found. -/
def statsOf (parts : List (String × Participant)) (q : Question) (qid : ℕ) : Stats :=
  { counts := (statsFold qid parts (q.options.map (fun _ => some 0), 0)).1,
    totalAnswered := (statsFold qid parts (q.options.map (fun _ => some 0), 0)).2,
    totalParticipants := parts.length }

/-- `calculateStats(session, questionId)` from src/server.js. -/
def calculateStats (s : SessionState) (qid : ℕ) : Option Stats :=
  match findQuestion s.quiz.questions qid with
  | none => none
  | some q => some (statsOf s.participants q qid)

/-- JS `Math.round` on an exact rational: round half toward positive infinity. -/
def jsRound (x : ℚ) : ℤ := ⌊x + 1 / 2⌋

/-- `Math.round(correctCount * pointsPerQuestion)` where
`pointsPerQuestion = quiz.totalScore / quiz.questions.length`; used both for the
running score at question close and the final score at quiz end. -/
def scoreOf (quiz : Quiz) (p : Participant) : ℤ :=
  jsRound ((p.correctCount : ℚ) * ((quiz.totalScore : ℚ) / (quiz.questions.length : ℚ)))

/-- `Math.round((correctCount / totalQuestions) * 100)` at quiz end. -/
def percentOf (correctCount totalQuestions : ℕ) : ℤ :=
  jsRound (((correctCount : ℚ) / (totalQuestions : ℚ)) * 100)

/-- JS comparison against `questionEndTime`, which is `null` (coerced to `0`)
before any question is opened. -/
def endTimeValue : Option ℕ → ℕ
  | none => 0
  | some t => t

/-- Assignment `obj[k] = v` on a JS object that already has key `k`:
replaces the value, keeping insertion order. -/
def setAssoc {α : Type} (l : List (String × α)) (k : String) (v : α) :
    List (String × α) :=
  l.map (fun kv => if kv.1 = k then (k, v) else kv)

/-- Outbound socket events (unicasts and room broadcasts) plus the write-behind
database calls that the handlers issue. -/
inductive Event where
  | sessionInvalidMsg
  | clearParticipantId
  | kickedNotice
  | participantJoined (pid name : String) (count : ℕ)
  | participantKicked (pid name : String) (count : ℕ)
  | quizStarted (title : String) (totalQuestions : ℕ)
  | questionStartedParticipants (q : ParticipantQuestion)
      (timeRemaining questionNumber totalQuestions : ℕ)
  | questionStartedAdmin (q : Question)
      (timeRemaining questionNumber totalQuestions : ℕ)
  | questionEndedParticipants (questionId : ℕ) (correctIndices : List ℕ)
      (stats : Option Stats) (results : List (String × PResult))
      (totalScore questionsAnswered totalQuestions : ℕ)
  | questionEndedAdmin (questionId : ℕ) (correctIndices : List ℕ)
      (stats : Option Stats)
  | questionEndedResync (questionId : ℕ) (correctIndices : List ℕ)
      (stats : Option Stats) (yourAnswer : Option ℕ)
  | answerReceived (pid name : String)
      (questionId answeredCount totalParticipants : ℕ)
  | answerConfirmed (questionId answerIndex : ℕ)
  | dbRecordAnswer (sessionId : ℕ) (pid : String) (questionIndex : ℤ)
      (answerIndex : ℕ) (isCorrect : Bool) (responseTimeMs : Option ℤ)
  | quizEndedParticipant (pid : String) (finalScore : ℤ) (totalScore : ℕ)
      (correctCount totalQuestions : ℕ) (percentage : ℤ) (passed : Bool)
  | quizEndedAdmin
deriving DecidableEq

/-- The per-participant `correctCount` update performed at question close:
increment exactly when the recorded answer is among `correctIndices`. -/
def scoreUpdate (q : Question) (part : Participant) : Participant :=
  match List.lookup q.id part.answers with
  | some a =>
    if q.correctIndices.contains a then
      { part with correctCount := part.correctCount + 1 }
    else part
  | none => part

/-- `endCurrentQuestion(sessionCode)` from src/server.js, on a session already
looked up. Guards: no current question, or results already showing, are no-ops.
The out-of-range `questions[index]` access (a TypeError in JS) is modelled as a
no-op; no theorem below depends on that branch. -/
def endCurrentQuestion (s : SessionState) : SessionState × List Event :=
  if s.quizState.currentQuestionIndex < 0 then (s, [])
  else if s.quizState.showingResults then (s, [])
  else
    match s.quiz.questions[s.quizState.currentQuestionIndex.toNat]? with
    | none => (s, [])
    | some q =>
      let parts := s.participants.map (fun kv => (kv.1, scoreUpdate q kv.2))
      let s' := { s with
        participants := parts
        quizState := { s.quizState with showingResults := true } }
      let stats := calculateStats s q.id
      let results := parts.map (fun kv =>
        (kv.1, { yourAnswer := List.lookup q.id kv.2.answers,
                 currentScore := scoreOf s.quiz kv.2,
                 correctCount := kv.2.correctCount : PResult }))
      (s', [Event.questionEndedParticipants q.id q.correctIndices stats results
              s.quiz.totalScore (s.quizState.currentQuestionIndex.toNat + 1)
              s.quiz.questions.length,
            Event.questionEndedAdmin q.id q.correctIndices stats])

/-- The `setTimeout` callback armed when a question opens: it re-checks that the
question it was armed for is still current and still open before closing. -/
def timerFire (s : SessionState) (armedIndex : ℤ) : SessionState × List Event :=
  if s.quizState.currentQuestionIndex == armedIndex && !s.quizState.showingResults then
    endCurrentQuestion s
  else (s, [])

/-- The `next_question` handler on a session already looked up: advances the index,
either ending the quiz (final scores per connected participant) or opening the
next question with role-separated payloads and a fresh deadline. -/
def nextQuestion (s : SessionState) (now : ℕ) : SessionState × List Event :=
  if !s.quizState.isRunning then (s, [])
  else
    let idx := s.quizState.currentQuestionIndex + 1
    let qs1 := { s.quizState with currentQuestionIndex := idx, showingResults := false }
    if (s.quiz.questions.length : ℤ) ≤ idx then
      let s2 := { s with quizState := { qs1 with isRunning := false } }
      let finals := s.participants.filterMap (fun kv =>
        if kv.2.socketId.isSome then
          some (Event.quizEndedParticipant kv.1 (scoreOf s.quiz kv.2) s.quiz.totalScore
            kv.2.correctCount s.quiz.questions.length
            (percentOf kv.2.correctCount s.quiz.questions.length)
            (decide ((s.quiz.passingPercent : ℤ) ≤
              percentOf kv.2.correctCount s.quiz.questions.length)))
        else none)
      (s2, finals ++ [Event.quizEndedAdmin])
    else
      match s.quiz.questions[idx.toNat]? with
      | none => ({ s with quizState := qs1 }, [])
      | some q =>
        let s2 := { s with
          quizState := { qs1 with questionEndTime := some (now + q.timeLimit * 1000) },
          questionStartTime := some now }
        (s2, [Event.questionStartedParticipants (getQuestionForParticipants q)
                q.timeLimit (idx.toNat + 1) s.quiz.questions.length,
              Event.questionStartedAdmin q q.timeLimit (idx.toNat + 1)
                s.quiz.questions.length])

/-- Result of the `submit_answer` handler: each precondition failure is a distinct
rejection (the first two answer the caller with `session_invalid`, the rest are
silent); only `recorded` mutates state. -/
inductive SubmitResult where
  | sessionGone
  | participantGone
  | notRunning
  | resultsShowing
  | unknownQuestion
  | alreadyAnswered
  | deadlinePassed
  | recorded (s' : SessionState) (events : List Event)
deriving DecidableEq

/-- Whether a `SubmitResult` recorded the answer. -/
def SubmitResult.isRecorded : SubmitResult → Bool
  | .recorded _ _ => true
  | _ => false

/-- The `submit_answer` socket handler from src/server.js (session-keyed version).
Note it looks the submitted `questionId` up among **all** quiz questions
(`find(q => q.id === questionId)`), not against the current question, and the
deadline check uses the current question's `questionEndTime`. -/
def submitAnswer (reg : List (String × SessionState)) (pid code : String)
    (qid ai now : ℕ) : SubmitResult :=
  match List.lookup code reg with
  | none => .sessionGone
  | some s =>
    match List.lookup pid s.participants with
    | none => .participantGone
    | some p =>
      if !s.quizState.isRunning then .notRunning
      else if s.quizState.showingResults then .resultsShowing
      else
        match findQuestion s.quiz.questions qid with
        | none => .unknownQuestion
        | some q =>
          if (List.lookup qid p.answers).isSome then .alreadyAnswered
          else if endTimeValue s.quizState.questionEndTime < now then .deadlinePassed
          else
            let p' := { p with answers := (qid, ai) :: p.answers }
            let parts' := setAssoc s.participants pid p'
            let s' := { s with participants := parts' }
            let answeredCount :=
              parts'.countP (fun kv => (List.lookup qid kv.2.answers).isSome)
            .recorded s'
              [Event.dbRecordAnswer s.id pid s.quizState.currentQuestionIndex ai
                 (q.correctIndices.contains ai)
                 (s.questionStartTime.map (fun st => (now : ℤ) - (st : ℤ))),
               Event.answerReceived pid p.name qid answeredCount parts'.length,
               Event.answerConfirmed qid ai]

/-- `participant.socketId = socket.id` on reconnection. -/
def attachSocket (s : SessionState) (pid sid : String) : SessionState :=
  match List.lookup pid s.participants with
  | none => s
  | some p =>
    { s with participants := setAssoc s.participants pid { p with socketId := some sid } }

/-- The `participant_join` socket handler: validates session, kicked flag (from the
database) and roster membership, attaches the socket, then resyncs the client with
the event matching the current phase. -/
def participantJoin (reg : List (String × SessionState)) (kicked : List String)
    (pid code sid : String) (now : ℕ) :
    List (String × SessionState) × List Event :=
  match List.lookup code reg with
  | none => (reg, [.sessionInvalidMsg, .clearParticipantId])
  | some s =>
    if kicked.contains pid then (reg, [.kickedNotice, .clearParticipantId])
    else
      match List.lookup pid s.participants with
      | none => (reg, [.sessionInvalidMsg, .clearParticipantId])
      | some p =>
        let s' := attachSocket s pid sid
        let reg' := setAssoc reg code s'
        if s'.quizState.isRunning ∧ 0 ≤ s'.quizState.currentQuestionIndex then
          match s'.quiz.questions[s'.quizState.currentQuestionIndex.toNat]? with
          | none => (reg', [])
          | some q =>
            let timeRemaining :=
              (max 0 ⌈(((endTimeValue s'.quizState.questionEndTime : ℚ)) - (now : ℚ)) / 1000⌉).toNat
            if s'.quizState.showingResults then
              (reg', [Event.questionEndedResync q.id q.correctIndices
                        (calculateStats s' q.id) (List.lookup q.id p.answers)])
            else if 0 < timeRemaining then
              (reg', [Event.questionStartedParticipants (getQuestionForParticipants q)
                        timeRemaining (s'.quizState.currentQuestionIndex.toNat + 1)
                        s'.quiz.questions.length])
            else (reg', [])
        else (reg', [])

/-- Whitespace as far as JS `String.prototype.trim` is concerned (the cases that
occur in this development). -/
def isWS (c : Char) : Bool :=
  c == ' ' || c == '\t' || c == '\n' || c == '\r'

/-- JS `name.trim()`: strip leading and trailing whitespace. -/
def jsTrim (s : String) : String :=
  String.mk (((s.toList.dropWhile isWS).reverse.dropWhile isWS).reverse)

/-- Result of `POST /api/session/:code/join`. -/
inductive JoinResult where
  | nameRequired
  | sessionNotFound
  | quizEnding
  | rejoined (reg' : List (String × SessionState)) (pid : String)
  | joined (reg' : List (String × SessionState)) (pid : String)
deriving DecidableEq

/-- The join endpoint: requires a non-empty (trimmed) name and a live session,
rejects joins once `currentQuestionIndex >= questions.length - 1` while running,
reattaches a supplied existing participant id, else creates a fresh participant
with zero score and an empty answer map. `freshId` stands for the id produced by
`db.createParticipant`. -/
def joinSession (reg : List (String × SessionState)) (code name : String)
    (existingParticipantId : Option String) (freshId : String) : JoinResult :=
  if jsTrim name = "" then .nameRequired
  else
    match List.lookup code reg with
    | none => .sessionNotFound
    | some s =>
      if s.quizState.isRunning ∧
          (s.quiz.questions.length : ℤ) - 1 ≤ s.quizState.currentQuestionIndex then
        .quizEnding
      else
        match existingParticipantId.bind
            (fun epid => (List.lookup epid s.participants).map (fun p => (epid, p))) with
        | some (epid, p) =>
          .rejoined (setAssoc reg code
            { s with participants := setAssoc s.participants epid { p with name := jsTrim name } }) epid
        | none =>
          let newP : Participant :=
            { id := freshId, name := jsTrim name, score := 0, correctCount := 0,
              answers := [], socketId := none }
          .joined (setAssoc reg code
            { s with participants := s.participants ++ [(freshId, newP)] }) freshId

/-- Result of `POST /api/admin/session/:code/kick/:participantId`. -/
inductive KickResult where
  | sessionNotFound
  | participantNotFound
  | kickedOk (reg' : List (String × SessionState)) (kicked' : List String)
      (events : List Event)
deriving DecidableEq

/-- The kick endpoint: marks the id kicked in the database (`kicked` list),
notifies and disconnects the participant's socket when attached, deletes the
in-memory record, and broadcasts the updated roster count. -/
def kickParticipantHandler (reg : List (String × SessionState)) (kicked : List String)
    (code pid : String) : KickResult :=
  match List.lookup code reg with
  | none => .sessionNotFound
  | some s =>
    match List.lookup pid s.participants with
    | none => .participantNotFound
    | some p =>
      let parts' := s.participants.filter (fun kv => !(kv.1 == pid))
      let s' := { s with participants := parts' }
      .kickedOk (setAssoc reg code s') (pid :: kicked)
        ((if p.socketId.isSome then [Event.kickedNotice] else []) ++
          [Event.participantKicked pid p.name parts'.length])

/-- The session-code alphabet from src/db.js: uppercase letters and digits with
the visually ambiguous I, O, 0, 1 removed. -/
def sessionCodeChars : List Char := "ABCDEFGHJKLMNPQRSTUVWXYZ23456789".toList

/-- `generateSessionCode()` given a stream `r` of random draws: six characters,
each selected from the 32-character alphabet. -/
def generateSessionCode (r : ℕ → ℕ) : String :=
  String.mk ((List.range 6).map (fun i => sessionCodeChars.getD (r i % 32) 'A'))

/-- The `while (attempts < 10)` retry loop of `db.createSession`, counting down
the remaining attempts; `gen k` is the code drawn on attempt `k` and `existing`
the uniqueness check against stored sessions. `none` models the thrown
allocation-exhaustion error. -/
def allocAux (existing : String → Bool) (gen : ℕ → String) :
    ℕ → ℕ → Option String
  | _, 0 => none
  | attempts, fuel + 1 =>
    let code := gen attempts
    if existing code then allocAux existing gen (attempts + 1) fuel
    else some code

/-- Code allocation in `db.createSession`: up to 10 draws, then failure. -/
def createSessionCode (existing : String → Bool) (gen : ℕ → String) : Option String :=
  allocAux existing gen 0 10

/-- Key-uniqueness of a participant's answer map (JS object keys are unique). -/
def wfAnswers (p : Participant) : Prop := (p.answers.map Prod.fst).Nodup

/-- The id of the question at `currentQuestionIndex`, when one is selected. -/
def currentQuestionId (s : SessionState) : Option ℕ :=
  if 0 ≤ s.quizState.currentQuestionIndex then
    (s.quiz.questions[s.quizState.currentQuestionIndex.toNat]?).map (fun q => q.id)
  else none

/-! Helper lemmas about the association-list operations used by the handlers. -/

theorem setAssoc_nil {α : Type} (k : String) (v : α) :
    setAssoc ([] : List (String × α)) k v = [] := rfl

theorem setAssoc_cons {α : Type} (k1 : String) (v1 : α) (t : List (String × α))
    (k : String) (v : α) :
    setAssoc ((k1, v1) :: t) k v =
      (if k1 = k then (k, v) else (k1, v1)) :: setAssoc t k v := rfl

theorem lookup_setAssoc {α : Type} (k : String) (v w : α) (l : List (String × α))
    (h : List.lookup k l = some w) : List.lookup k (setAssoc l k v) = some v := by
  induction l with
  | nil => simp [List.lookup] at h
  | cons kv t ih =>
    obtain ⟨k1, v1⟩ := kv
    by_cases hk : k1 = k
    · subst hk
      rw [setAssoc_cons, if_pos rfl]
      simp [List.lookup]
    · have hb : (k == k1) = false := beq_eq_false_iff_ne.mpr (Ne.symm hk)
      simp only [List.lookup, hb] at h
      rw [setAssoc_cons, if_neg hk]
      simpa [List.lookup, hb] using ih h

theorem lookup_eq_none_iff {κ α : Type} [BEq κ] [LawfulBEq κ] (k : κ)
    (l : List (κ × α)) : List.lookup k l = none ↔ k ∉ l.map Prod.fst := by
  induction l with
  | nil => simp [List.lookup]
  | cons kv t ih =>
    obtain ⟨k1, v1⟩ := kv
    by_cases hk : k = k1
    · simp [List.lookup, beq_iff_eq.mpr hk, hk]
    · simp [List.lookup, beq_eq_false_iff_ne.mpr hk, ih, hk]

theorem setAssoc_id {α : Type} (k : String) (v : α) (l : List (String × α))
    (h : List.lookup k l = none) : setAssoc l k v = l := by
  induction l with
  | nil => rfl
  | cons kv t ih =>
    obtain ⟨k1, v1⟩ := kv
    have hk : ¬(k = k1) := by
      intro he
      simp [List.lookup, beq_iff_eq.mpr he] at h
    have ht : List.lookup k t = none := by
      simpa [List.lookup, beq_eq_false_iff_ne.mpr hk] using h
    rw [setAssoc_cons, if_neg (fun he => hk he.symm), ih ht]

theorem lookup_map_snd {α β : Type} (g : α → β) (k : String) (l : List (String × α)) :
    List.lookup k (l.map (fun kv => (kv.1, g kv.2))) = (List.lookup k l).map g := by
  induction l with
  | nil => simp [List.lookup]
  | cons kv t ih =>
    by_cases hk : k = kv.1
    · simp [List.lookup, beq_iff_eq.mpr hk]
    · simp [List.lookup, beq_eq_false_iff_ne.mpr hk, ih]

theorem lookup_filter_self {α : Type} (k : String) (l : List (String × α)) :
    List.lookup k (l.filter (fun kv => !(kv.1 == k))) = none := by
  induction l with
  | nil => simp [List.lookup]
  | cons kv t ih =>
    by_cases hk : kv.1 = k
    · simpa [List.filter, beq_iff_eq.mpr hk] using ih
    · simp [List.filter, beq_eq_false_iff_ne.mpr hk, List.lookup,
        beq_eq_false_iff_ne.mpr (Ne.symm hk), ih]

theorem lookup_append_fresh {α : Type} (k : String) (v : α) (l : List (String × α))
    (h : List.lookup k l = none) : List.lookup k (l ++ [(k, v)]) = some v := by
  induction l with
  | nil => simp [List.lookup]
  | cons kv t ih =>
    have hk : ¬(k = kv.1) := by
      intro he
      simp [List.lookup, beq_iff_eq.mpr he] at h
    have ht : List.lookup k t = none := by
      simpa [List.lookup, beq_eq_false_iff_ne.mpr hk] using h
    simpa [List.lookup, beq_eq_false_iff_ne.mpr hk] using ih ht

theorem mem_setAssoc_self {α : Type} (k : String) (v w : α) (l : List (String × α))
    (h : List.lookup k l = some w) : (k, v) ∈ setAssoc l k v := by
  induction l with
  | nil => simp [List.lookup] at h
  | cons kv t ih =>
    obtain ⟨k1, v1⟩ := kv
    by_cases hk : k1 = k
    · rw [setAssoc_cons, if_pos hk]
      exact List.mem_cons_self _ _
    · have hb : (k == k1) = false := beq_eq_false_iff_ne.mpr (Ne.symm hk)
      simp only [List.lookup, hb] at h
      rw [setAssoc_cons, if_neg hk]
      exact List.mem_cons_of_mem _ (ih h)

theorem countP_setAssoc_incr {α : Type} (k : String) (vOld vNew : α)
    (pred : α → Bool) (l : List (String × α))
    (hnd : (l.map Prod.fst).Nodup) (h : List.lookup k l = some vOld)
    (hOld : pred vOld = false) (hNew : pred vNew = true) :
    (setAssoc l k vNew).countP (fun kv => pred kv.2) =
      l.countP (fun kv => pred kv.2) + 1 := by
  induction l with
  | nil => simp [List.lookup] at h
  | cons kv t ih =>
    obtain ⟨k1, v1⟩ := kv
    have hnd' : (k1 :: t.map Prod.fst).Nodup := by simpa using hnd
    have hnd1 : k1 ∉ t.map Prod.fst := (List.nodup_cons.mp hnd').1
    have hnd2 : (t.map Prod.fst).Nodup := (List.nodup_cons.mp hnd').2
    by_cases hk : k1 = k
    · subst hk
      have hv : v1 = vOld := by
        have h1 : List.lookup k1 ((k1, v1) :: t) = some v1 := by
          simp [List.lookup]
        rw [h1] at h
        exact (Option.some.injEq _ _).mp h
      have hnt : List.lookup k1 t = none := (lookup_eq_none_iff _ _).mpr hnd1
      rw [setAssoc_cons, if_pos rfl, setAssoc_id _ _ _ hnt]
      simp [List.countP_cons, hNew, hv ▸ hOld]
    · have hb : (k == k1) = false := beq_eq_false_iff_ne.mpr (Ne.symm hk)
      simp only [List.lookup, hb] at h
      rw [setAssoc_cons, if_neg hk]
      simp only [List.countP_cons, ih hnd2 h]
      omega

theorem jsIncrAt_length (l : List (Option ℕ)) (i : ℕ) :
    (jsIncrAt l i).length = max l.length (i + 1) := by
  unfold jsIncrAt
  split
  · simp
    omega
  · simp
    omega

theorem statsFold_len_mono (qid : ℕ) (ps : List (String × Participant))
    (acc : List (Option ℕ) × ℕ) :
    acc.1.length ≤ (statsFold qid ps acc).1.length := by
  induction ps generalizing acc with
  | nil => exact le_refl _
  | cons kv t ih =>
    unfold statsFold
    simp only [List.foldl_cons]
    rcases ha : List.lookup qid kv.2.answers with _ | a
    · simpa [ha] using ih acc
    · simp only [ha]
      refine le_trans ?_ (ih _)
      simp [jsIncrAt_length]

theorem statsFold_len_ge (qid : ℕ) (ps : List (String × Participant))
    (acc : List (Option ℕ) × ℕ) (kv : String × Participant) (a : ℕ)
    (hmem : kv ∈ ps) (ha : List.lookup qid kv.2.answers = some a) :
    a + 1 ≤ (statsFold qid ps acc).1.length := by
  induction ps generalizing acc with
  | nil => cases hmem
  | cons hd t ih =>
    unfold statsFold
    simp only [List.foldl_cons]
    rcases List.mem_cons.mp hmem with he | ht
    · subst he
      simp only [ha]
      refine le_trans ?_ (statsFold_len_mono qid t _)
      simp [jsIncrAt_length]
    · rcases hh : List.lookup qid hd.2.answers with _ | b
      · exact ih _ ht
      · exact ih _ ht

theorem statsFold_count (qid : ℕ) (ps : List (String × Participant))
    (acc : List (Option ℕ) × ℕ) :
    (statsFold qid ps acc).2 =
      acc.2 + ps.countP (fun kv => (List.lookup qid kv.2.answers).isSome) := by
  induction ps generalizing acc with
  | nil => simp [statsFold]
  | cons kv t ih =>
    unfold statsFold
    simp only [List.foldl_cons]
    rcases ha : List.lookup qid kv.2.answers with _ | a
    · have := ih acc
      simp [statsFold] at this
      simp [this, List.countP_cons, ha]
    · have := ih (jsIncrAt acc.1 a, acc.2 + 1)
      simp [statsFold] at this
      simp [this, List.countP_cons, ha]
      omega

/-! Concrete fixtures used by witnesses and counterexamples. -/

/-- A two-option question with id 1. -/
def qW1 : Question :=
  { id := 1, text := "Q1", options := ["a", "b"], correctIndices := [1], timeLimit := 20 }

/-- A three-option question with id 2. -/
def qW2 : Question :=
  { id := 2, text := "Q2", options := ["a", "b", "c"], correctIndices := [2], timeLimit := 10 }

/-- A two-question, 100-point quiz. -/
def quizW : Quiz :=
  { title := "W", questions := [qW1, qW2], totalScore := 100, passingPercent := 70 }

/-- A participant with no recorded answers. -/
def pW1 : Participant :=
  { id := "p1", name := "Ann", score := 0, correctCount := 0, answers := [], socketId := none }

/-- A four-option question used by the scoring demo. -/
def qD (n : ℕ) : Question :=
  { id := n, text := "Q", options := ["a", "b", "c", "d"], correctIndices := [1], timeLimit := 20 }

/-- A four-question, 100-point quiz. -/
def demoQuiz4 : Quiz :=
  { title := "Demo", questions := [qD 1, qD 2, qD 3, qD 4], totalScore := 100,
    passingPercent := 70 }

/-- A participant with three correct answers so far. -/
def demoP3 : Participant :=
  { id := "p3", name := "Cara", score := 0, correctCount := 3, answers := [], socketId := none }

/-- A session whose current question (index 0) is already closed (results showing). -/
def sClosedW : SessionState :=
  { id := 1, code := "SESSW1", quiz := quizW, participants := [("p1", pW1)],
    quizState := { isRunning := true, currentQuestionIndex := 0,
                   questionEndTime := some 20000, showingResults := true },
    questionStartTime := some 0 }

/-- A freshly started session: running, no question opened yet. -/
def sStartedW : SessionState :=
  { id := 2, code := "SESSW2", quiz := quizW, participants := [("p1", pW1)],
    quizState := { isRunning := true, currentQuestionIndex := -1,
                   questionEndTime := none, showingResults := false },
    questionStartTime := none }

/-! Claim theorems. -/

/-- C2: closing an already-closed question (results showing) is a no-op, whether via
the host's `end_question` command (`endCurrentQuestion`) or via the deadline timer
callback: the state is unchanged (so no `correctCount` is incremented again) and no
`questionClosed` broadcast is emitted. -/
theorem endQuestion_close_idempotent (s : SessionState) (i : ℤ)
    (h : s.quizState.showingResults = true) :
    endCurrentQuestion s = (s, []) ∧ timerFire s i = (s, []) := by
  have he : endCurrentQuestion s = (s, []) := by
    unfold endCurrentQuestion
    by_cases h0 : s.quizState.currentQuestionIndex < 0
    · rw [if_pos h0]
    · rw [if_neg h0, if_pos h]
  refine ⟨he, ?_⟩
  simp [timerFire, h]

/-- C2 witness: the no-op on a concrete closed-question session. -/
theorem endQuestion_close_idempotent_witness :
    sClosedW.quizState.showingResults = true ∧
    (endCurrentQuestion sClosedW = (sClosedW, []) ∧ timerFire sClosedW 0 = (sClosedW, [])) :=
  ⟨rfl, endQuestion_close_idempotent sClosedW 0 rfl⟩

/-- C4: the score computed by the engine — `Math.round(correctCount * (totalScore /
questionCount))`, used both for the running score at question close and the final
score at quiz end — equals `round(correctCount * totalScore / questionCount)`;
in particular with a 100-point, 4-question quiz and 3 correct answers it is 75. -/
theorem scoreOf_round_formula :
    (∀ (quiz : Quiz) (p : Participant),
      scoreOf quiz p =
        jsRound (((p.correctCount : ℚ) * (quiz.totalScore : ℚ)) /
          (quiz.questions.length : ℚ))) ∧
    scoreOf demoQuiz4 demoP3 = 75 := by
  constructor
  · intro quiz p
    unfold scoreOf
    rw [mul_div_assoc]
  · norm_num [scoreOf, jsRound, demoQuiz4, demoP3, qD]

/-- C5: when a question opens, the participants' broadcast carries only
`getQuestionForParticipants question` (id, text, options, time limit — a payload
that is invariant under any change of the correct-option set), while the
host/presenter broadcast carries the full question including `correctIndices`. -/
theorem questionOpen_payload_roles (s : SessionState) (now : ℕ) (q : Question)
    (hrun : s.quizState.isRunning = true)
    (hq : s.quiz.questions[(s.quizState.currentQuestionIndex + 1).toNat]? = some q)
    (hlt : s.quizState.currentQuestionIndex + 1 < (s.quiz.questions.length : ℤ)) :
    (nextQuestion s now).2 =
      [Event.questionStartedParticipants (getQuestionForParticipants q) q.timeLimit
         ((s.quizState.currentQuestionIndex + 1).toNat + 1) s.quiz.questions.length,
       Event.questionStartedAdmin q q.timeLimit
         ((s.quizState.currentQuestionIndex + 1).toNat + 1) s.quiz.questions.length] ∧
    (∀ ci : List ℕ, getQuestionForParticipants { q with correctIndices := ci } =
        getQuestionForParticipants q) := by
  constructor
  · unfold nextQuestion
    rw [hrun]
    simp only [Bool.not_true, Bool.false_eq_true, if_false, if_neg (not_le.mpr hlt), hq]
  · intro ci
    rfl

/-- C5 witness: opening question 1 of a concrete freshly started session. -/
theorem questionOpen_payload_roles_witness :
    sStartedW.quizState.isRunning = true ∧
    sStartedW.quiz.questions[(sStartedW.quizState.currentQuestionIndex + 1).toNat]? =
      some qW1 ∧
    sStartedW.quizState.currentQuestionIndex + 1 < (sStartedW.quiz.questions.length : ℤ) ∧
    ((nextQuestion sStartedW 5000).2 =
      [Event.questionStartedParticipants (getQuestionForParticipants qW1) qW1.timeLimit
         ((sStartedW.quizState.currentQuestionIndex + 1).toNat + 1)
         sStartedW.quiz.questions.length,
       Event.questionStartedAdmin qW1 qW1.timeLimit
         ((sStartedW.quizState.currentQuestionIndex + 1).toNat + 1)
         sStartedW.quiz.questions.length] ∧
     (∀ ci : List ℕ, getQuestionForParticipants { qW1 with correctIndices := ci } =
        getQuestionForParticipants qW1)) :=
  ⟨rfl, by decide, by decide,
    questionOpen_payload_roles sStartedW 5000 qW1 rfl (by decide) (by decide)⟩

/-- A session of `quizW` with question 2 (index 1, id 2) currently open. -/
def sStaleW : SessionState :=
  { id := 3, code := "SESSA", quiz := quizW, participants := [("p1", pW1)],
    quizState := { isRunning := true, currentQuestionIndex := 1,
                   questionEndTime := some 100000, showingResults := false },
    questionStartTime := some 90000 }

/-- Registry holding only `sStaleW`. -/
def regStaleW : List (String × SessionState) := [("SESSA", sStaleW)]

/-- C1 counterexample: in `sStaleW` the current question is id 2, yet a submission
for question id 1 — a question the client has moved past — passes every check in
the handler and is recorded, because the handler only requires the submitted
`questionId` to exist somewhere in the quiz. -/
theorem submitAnswer_stale_question_recorded :
    (submitAnswer regStaleW "p1" "SESSA" 1 0 95000).isRecorded = true ∧
    currentQuestionId sStaleW = some 2 := by decide

/-- C1 amended: `submitAnswer` records the answer exactly when: the session exists;
the participant exists (kicked participants having been removed from the roster);
the quiz is running and results are not showing (phase `QuestionOpen`); the
submitted `questionId` identifies **some** question of the quiz (not necessarily
the current one, so an answer for a question the client has moved past is still
accepted); the participant has no prior recorded answer for that question id; and
`now` is at or before the current question's deadline. Each failing check yields
its own distinct rejection. -/
theorem submitAnswer_preconditions (reg : List (String × SessionState))
    (pid code : String) (qid ai now : ℕ) :
    (submitAnswer reg pid code qid ai now).isRecorded = true ↔
    ∃ s p q, List.lookup code reg = some s ∧
      List.lookup pid s.participants = some p ∧
      s.quizState.isRunning = true ∧ s.quizState.showingResults = false ∧
      findQuestion s.quiz.questions qid = some q ∧
      List.lookup qid p.answers = none ∧
      now ≤ endTimeValue s.quizState.questionEndTime := by
  constructor
  · intro h
    rcases hs : List.lookup code reg with _ | s
    · simp [submitAnswer, hs, SubmitResult.isRecorded] at h
    rcases hp : List.lookup pid s.participants with _ | p
    · simp [submitAnswer, hs, hp, SubmitResult.isRecorded] at h
    by_cases h1 : s.quizState.isRunning = true
    · by_cases h2 : s.quizState.showingResults = true
      · simp [submitAnswer, hs, hp, h1, h2, SubmitResult.isRecorded] at h
      · rcases hf : findQuestion s.quiz.questions qid with _ | q
        · simp [submitAnswer, hs, hp, h1, h2, hf, SubmitResult.isRecorded] at h
        · rcases hn : List.lookup qid p.answers with _ | v
          · by_cases ht : endTimeValue s.quizState.questionEndTime < now
            · simp [submitAnswer, hs, hp, h1, h2, hf, hn, ht,
                SubmitResult.isRecorded] at h
            · exact ⟨s, p, q, rfl, hp, h1, Bool.not_eq_true _ ▸ Bool.of_not_eq_true h2,
                hf, hn, not_lt.mp ht⟩
          · simp [submitAnswer, hs, hp, h1, h2, hf, hn, SubmitResult.isRecorded] at h
    · simp [submitAnswer, hs, hp, h1, SubmitResult.isRecorded] at h
  · rintro ⟨s, p, q, hs, hp, h1, h2, hf, hn, ht⟩
    simp [submitAnswer, hs, hp, h1, h2, hf, hn, SubmitResult.isRecorded,
      not_lt.mpr ht]

/-- C3: a participant's answer map is first-write-wins: with a prior recorded
answer for `qid` no submission is ever recorded (the state is left unchanged since
every rejection carries none), and a successful recording prepends the single new
entry for a question id that had no entry, preserving at-most-one-entry-per-id. -/
theorem submitAnswer_first_write_wins (reg : List (String × SessionState))
    (pid code : String) (qid ai now : ℕ) (s : SessionState) (p : Participant)
    (hs : List.lookup code reg = some s)
    (hp : List.lookup pid s.participants = some p) :
    (∀ v, List.lookup qid p.answers = some v →
      ∀ s' evts, submitAnswer reg pid code qid ai now ≠ SubmitResult.recorded s' evts) ∧
    (∀ s' evts, submitAnswer reg pid code qid ai now = SubmitResult.recorded s' evts →
      List.lookup pid s'.participants =
        some { p with answers := (qid, ai) :: p.answers } ∧
      (wfAnswers p → wfAnswers { p with answers := (qid, ai) :: p.answers })) := by
  constructor
  · intro v hv s' evts hcontra
    by_cases h1 : s.quizState.isRunning = true
    · by_cases h2 : s.quizState.showingResults = true
      · simp [submitAnswer, hs, hp, h1, h2] at hcontra
      · rcases hf : findQuestion s.quiz.questions qid with _ | q
        · simp [submitAnswer, hs, hp, h1, h2, hf] at hcontra
        · simp [submitAnswer, hs, hp, h1, h2, hf, hv] at hcontra
    · simp [submitAnswer, hs, hp, h1] at hcontra
  · intro s' evts heq
    by_cases h1 : s.quizState.isRunning = true
    · by_cases h2 : s.quizState.showingResults = true
      · simp [submitAnswer, hs, hp, h1, h2] at heq
      · rcases hf : findQuestion s.quiz.questions qid with _ | q
        · simp [submitAnswer, hs, hp, h1, h2, hf] at heq
        · rcases hn : List.lookup qid p.answers with _ | v
          · by_cases ht : endTimeValue s.quizState.questionEndTime < now
            · simp [submitAnswer, hs, hp, h1, h2, hf, hn, ht] at heq
            · simp [submitAnswer, hs, hp, h1, h2, hf, hn, ht] at heq
              obtain ⟨hstate, hevts⟩ := heq
              constructor
              · rw [← hstate]
                exact lookup_setAssoc pid _ p s.participants hp
              · intro hwf
                have hmem : qid ∉ p.answers.map Prod.fst :=
                  (lookup_eq_none_iff qid p.answers).mp hn
                simp only [wfAnswers, List.map_cons, List.nodup_cons]
                exact ⟨hmem, hwf⟩
          · simp [submitAnswer, hs, hp, h1, h2, hf, hn] at heq
    · simp [submitAnswer, hs, hp, h1] at heq

/-- C1 witness: the precondition characterization applied to the concrete
stale-question scenario. -/
theorem submitAnswer_preconditions_witness :
    (submitAnswer regStaleW "p1" "SESSA" 1 0 95000).isRecorded = true ↔
    ∃ s p q, List.lookup "SESSA" regStaleW = some s ∧
      List.lookup "p1" s.participants = some p ∧
      s.quizState.isRunning = true ∧ s.quizState.showingResults = false ∧
      findQuestion s.quiz.questions 1 = some q ∧
      List.lookup 1 p.answers = none ∧
      95000 ≤ endTimeValue s.quizState.questionEndTime :=
  submitAnswer_preconditions regStaleW "p1" "SESSA" 1 0 95000

/-- A participant who already answered question 1 (with option 1). -/
def pW2 : Participant :=
  { id := "p2", name := "Ben", score := 0, correctCount := 1, answers := [(1, 1)],
    socketId := some "sock2" }

/-- A session of `quizW` with question 1 open and `pW2` already answered. -/
def sAnsweredW : SessionState :=
  { id := 6, code := "SESSB", quiz := quizW, participants := [("p2", pW2)],
    quizState := { isRunning := true, currentQuestionIndex := 0,
                   questionEndTime := some 20000, showingResults := false },
    questionStartTime := some 0 }

/-- Registry holding only `sAnsweredW`. -/
def regAnsweredW : List (String × SessionState) := [("SESSB", sAnsweredW)]

/-- C3 witness: first-write-wins applied to a concrete duplicate submission. -/
theorem submitAnswer_first_write_wins_witness :
    List.lookup "SESSB" regAnsweredW = some sAnsweredW ∧
    List.lookup "p2" sAnsweredW.participants = some pW2 ∧
    ((∀ v, List.lookup 1 pW2.answers = some v →
      ∀ s' evts, submitAnswer regAnsweredW "p2" "SESSB" 1 0 5000 ≠
        SubmitResult.recorded s' evts) ∧
     (∀ s' evts, submitAnswer regAnsweredW "p2" "SESSB" 1 0 5000 =
        SubmitResult.recorded s' evts →
      List.lookup "p2" s'.participants =
        some { pW2 with answers := (1, 0) :: pW2.answers } ∧
      (wfAnswers pW2 → wfAnswers { pW2 with answers := (1, 0) :: pW2.answers }))) :=
  ⟨by decide, by decide,
    submitAnswer_first_write_wins regAnsweredW "p2" "SESSB" 1 0 5000 sAnsweredW pW2
      (by decide) (by decide)⟩

/-- Helper: the fresh-join path of the join endpoint, shared by several claims. -/
theorem joinSession_fresh_spec (reg : List (String × SessionState))
    (code name freshId : String) (s : SessionState)
    (hname : ¬(jsTrim name = ""))
    (hs : List.lookup code reg = some s)
    (hend : ¬(s.quizState.isRunning = true ∧
      (s.quiz.questions.length : ℤ) - 1 ≤ s.quizState.currentQuestionIndex))
    (hfresh : List.lookup freshId s.participants = none) :
    ∃ s', joinSession reg code name none freshId =
        JoinResult.joined (setAssoc reg code s') freshId ∧
      List.lookup code (setAssoc reg code s') = some s' ∧
      List.lookup freshId s'.participants = some
        { id := freshId, name := jsTrim name, score := 0, correctCount := 0,
          answers := [], socketId := none } ∧
      s'.quizState = s.quizState ∧ s'.quiz = s.quiz := by
  refine ⟨{ s with participants := s.participants ++
    [(freshId, { id := freshId, name := jsTrim name, score := 0, correctCount := 0,
                 answers := [], socketId := none })] }, ?_, ?_, ?_, rfl, rfl⟩
  · simp only [joinSession, hname, hs, if_neg hend, if_false, Option.bind_none,
      Option.none_bind]
  · exact lookup_setAssoc code _ s reg hs
  · exact lookup_append_fresh freshId _ s.participants hfresh

/-- C6 counterexample: `sStaleW` is running (its quiz is not ended: the current
index still addresses a question), yet a join with the non-empty name "Bob" is
rejected with the quiz-is-ending error because the last question is open. -/
theorem joinSession_rejected_on_last_question :
    joinSession regStaleW "SESSA" "Bob" none "fresh1" = JoinResult.quizEnding ∧
    sStaleW.quizState.isRunning = true ∧
    sStaleW.quizState.currentQuestionIndex < (sStaleW.quiz.questions.length : ℤ) := by
  decide

/-- C6 amended: while the quiz is running, a join with a non-empty name succeeds
and creates a fresh zero-score participant only as long as the current question
is not the last (`currentQuestionIndex < questionCount - 1`); a join while the
last question is open is rejected with the quiz-is-ending error. -/
theorem joinSession_accepts_before_last_question
    (reg : List (String × SessionState)) (code name freshId : String)
    (s : SessionState)
    (hname : ¬(jsTrim name = ""))
    (hs : List.lookup code reg = some s)
    (_hrun : s.quizState.isRunning = true)
    (hlt : s.quizState.currentQuestionIndex < (s.quiz.questions.length : ℤ) - 1)
    (hfresh : List.lookup freshId s.participants = none) :
    ∃ s', joinSession reg code name none freshId =
        JoinResult.joined (setAssoc reg code s') freshId ∧
      List.lookup code (setAssoc reg code s') = some s' ∧
      List.lookup freshId s'.participants = some
        { id := freshId, name := jsTrim name, score := 0, correctCount := 0,
          answers := [], socketId := none } ∧
      s'.quizState = s.quizState ∧ s'.quiz = s.quiz :=
  joinSession_fresh_spec reg code name freshId s hname hs
    (fun hc => absurd hlt (not_lt.mpr hc.2)) hfresh

/-- A session of `quizW` with question 1 (not the last) open. -/
def sMidW : SessionState :=
  { id := 5, code := "SESSD", quiz := quizW, participants := [("p1", pW1)],
    quizState := { isRunning := true, currentQuestionIndex := 0,
                   questionEndTime := some 20000, showingResults := false },
    questionStartTime := some 0 }

/-- Registry holding only `sMidW`. -/
def regMidW : List (String × SessionState) := [("SESSD", sMidW)]

/-- C6 witness: a concrete mid-quiz join that succeeds with a fresh participant. -/
theorem joinSession_accepts_before_last_question_witness :
    ¬(jsTrim "Bob" = "") ∧
    List.lookup "SESSD" regMidW = some sMidW ∧
    sMidW.quizState.isRunning = true ∧
    sMidW.quizState.currentQuestionIndex < (sMidW.quiz.questions.length : ℤ) - 1 ∧
    (∃ s', joinSession regMidW "SESSD" "Bob" none "fresh1" =
        JoinResult.joined (setAssoc regMidW "SESSD" s') "fresh1" ∧
      List.lookup "SESSD" (setAssoc regMidW "SESSD" s') = some s' ∧
      List.lookup "fresh1" s'.participants = some
        { id := "fresh1", name := jsTrim "Bob", score := 0, correctCount := 0,
          answers := [], socketId := none } ∧
      s'.quizState = sMidW.quizState ∧ s'.quiz = sMidW.quiz) :=
  ⟨by decide, by decide, rfl, by decide,
    joinSession_accepts_before_last_question regMidW "SESSD" "Bob" "fresh1" sMidW
      (by decide) (by decide) rfl (by decide) (by decide)⟩

/-- Helper: the retry loop returns `none` when every draw within the fuel collides. -/
theorem allocAux_none (existing : String → Bool) (gen : ℕ → String) :
    ∀ (fuel attempts : ℕ),
      (∀ k, attempts ≤ k → k < attempts + fuel → existing (gen k) = true) →
      allocAux existing gen attempts fuel = none := by
  intro fuel
  induction fuel with
  | zero => intro attempts h; rfl
  | succ n ih =>
    intro attempts h
    unfold allocAux
    rw [if_pos (h attempts le_rfl (by omega))]
    exact ih (attempts + 1) (fun k hk1 hk2 => h k (by omega) (by omega))

/-- Helper: a successful allocation is one of the draws within the fuel, and was
free when drawn. -/
theorem allocAux_some (existing : String → Bool) (gen : ℕ → String) :
    ∀ (fuel attempts : ℕ) (c : String),
      allocAux existing gen attempts fuel = some c →
      ∃ k, attempts ≤ k ∧ k < attempts + fuel ∧ c = gen k ∧ existing c = false := by
  intro fuel
  induction fuel with
  | zero => intro attempts c h; cases h
  | succ n ih =>
    intro attempts c h
    unfold allocAux at h
    by_cases he : existing (gen attempts) = true
    · rw [if_pos he] at h
      obtain ⟨k, hk1, hk2, hk3, hk4⟩ := ih (attempts + 1) c h
      exact ⟨k, by omega, by omega, hk3, hk4⟩
    · rw [if_neg he] at h
      have hc : gen attempts = c := (Option.some.injEq _ _).mp h
      subst hc
      exact ⟨attempts, le_rfl, by omega, rfl, Bool.not_eq_true _ ▸ he⟩

/-- C8: session-code allocation terminates with a bounded retry: if all 10 draws
collide it fails definitely with `none` (the thrown allocation-exhaustion error),
otherwise it returns one of the first 10 draws, which was free; and every
generated code has exactly 6 characters drawn from the fixed alphabet, which
excludes the visually ambiguous I, O, 0 and 1. -/
theorem sessionCode_allocation_bounded (existing : String → Bool)
    (gen : ℕ → String) (r : ℕ → ℕ) :
    ((∀ i, i < 10 → existing (gen i) = true) →
      createSessionCode existing gen = none) ∧
    (∀ c, createSessionCode existing gen = some c →
      ∃ k, k < 10 ∧ c = gen k ∧ existing c = false) ∧
    (generateSessionCode r).length = 6 ∧
    (∀ ch ∈ (generateSessionCode r).toList, ch ∈ sessionCodeChars) ∧
    ('I' ∉ sessionCodeChars ∧ 'O' ∉ sessionCodeChars ∧
      '0' ∉ sessionCodeChars ∧ '1' ∉ sessionCodeChars) := by
  refine ⟨?_, ?_, ?_, ?_, by decide⟩
  · intro h
    exact allocAux_none existing gen 10 0 (fun k _ hk => h k (by omega))
  · intro c h
    obtain ⟨k, _, hk2, hk3, hk4⟩ := allocAux_some existing gen 10 0 c h
    exact ⟨k, by omega, hk3, hk4⟩
  · simp [generateSessionCode]
  · intro ch hch
    simp only [generateSessionCode, String.toList] at hch
    obtain ⟨i, _, hi⟩ := List.mem_map.mp hch
    have hlen : r i % 32 < sessionCodeChars.length := by
      have : sessionCodeChars.length = 32 := by decide
      omega
    rw [← hi, List.getD_eq_getElem sessionCodeChars 'A' hlen]
    exact List.getElem_mem hlen

/-- C8 witness: with a generator that always collides, allocation fails after the
bounded number of attempts. -/
theorem sessionCode_allocation_bounded_witness :
    (∀ i, i < 10 → (fun _ => true) ((fun _ => "AAAAAA") i) = true) ∧
    createSessionCode (fun _ => true) (fun _ => "AAAAAA") = none :=
  ⟨fun _ _ => rfl,
    (sessionCode_allocation_bounded (fun _ => true) (fun _ => "AAAAAA")
      (fun _ => 0)).1 (fun _ _ => rfl)⟩

/-- C10: kicking is terminal only for the participant id, not the person. Kicking
deletes the in-memory record and marks the id kicked (database `is_kicked`), so a
later `participant_join` under that id gets the kicked notice and is told to clear
its stored id; but a plain `join(code, name)` without an existing id still creates
a fresh participant with zero score and an empty answer map. -/
theorem kick_terminal_for_id_not_person (reg : List (String × SessionState))
    (kicked : List String) (code pid sid name freshId : String) (now : ℕ)
    (s : SessionState) (p : Participant)
    (hs : List.lookup code reg = some s)
    (hp : List.lookup pid s.participants = some p) :
    ∃ reg' s',
      kickParticipantHandler reg kicked code pid =
        KickResult.kickedOk reg' (pid :: kicked)
          ((if p.socketId.isSome then [Event.kickedNotice] else []) ++
            [Event.participantKicked pid p.name s'.participants.length]) ∧
      reg' = setAssoc reg code s' ∧
      List.lookup code reg' = some s' ∧
      List.lookup pid s'.participants = none ∧
      (pid :: kicked).contains pid = true ∧
      (participantJoin reg' (pid :: kicked) pid code sid now).2 =
        [Event.kickedNotice, Event.clearParticipantId] ∧
      (¬(jsTrim name = "") →
        ¬(s'.quizState.isRunning = true ∧
          (s'.quiz.questions.length : ℤ) - 1 ≤ s'.quizState.currentQuestionIndex) →
        List.lookup freshId s'.participants = none →
        ∃ s'', joinSession reg' code name none freshId =
            JoinResult.joined (setAssoc reg' code s'') freshId ∧
          List.lookup freshId s''.participants = some
            { id := freshId, name := jsTrim name, score := 0, correctCount := 0,
              answers := [], socketId := none }) := by
  refine ⟨setAssoc reg code
      { s with participants := s.participants.filter (fun kv => !(kv.1 == pid)) },
    { s with participants := s.participants.filter (fun kv => !(kv.1 == pid)) },
    ?_, rfl, ?_, ?_, ?_, ?_, ?_⟩
  · simp [kickParticipantHandler, hs, hp]
  · exact lookup_setAssoc code _ s reg hs
  · exact lookup_filter_self pid s.participants
  · simp [List.contains]
  · have hs' : List.lookup code (setAssoc reg code
        { s with participants := s.participants.filter (fun kv => !(kv.1 == pid)) }) =
        some { s with participants := s.participants.filter (fun kv => !(kv.1 == pid)) } :=
      lookup_setAssoc code _ s reg hs
    simp [participantJoin, hs', List.contains]
  · intro hname hend hfresh
    obtain ⟨s'', h1, _, h3, _, _⟩ :=
      joinSession_fresh_spec _ code name freshId _ hname
        (lookup_setAssoc code _ s reg hs) hend hfresh
    exact ⟨s'', h1, h3⟩

/-- A session with the two participants `pW1` (connected) and `pW2`. -/
def sKickW : SessionState :=
  { id := 7, code := "SESSE", quiz := quizW,
    participants := [("p1", { pW1 with socketId := some "sock1" }), ("p2", pW2)],
    quizState := { isRunning := false, currentQuestionIndex := -1,
                   questionEndTime := none, showingResults := false },
    questionStartTime := none }

/-- Registry holding only `sKickW`. -/
def regKickW : List (String × SessionState) := [("SESSE", sKickW)]

/-- C10 witness: kicking participant p1 of a concrete session. -/
theorem kick_terminal_for_id_not_person_witness :
    List.lookup "SESSE" regKickW = some sKickW ∧
    List.lookup "p1" sKickW.participants = some { pW1 with socketId := some "sock1" } ∧
    ∃ reg' s',
      kickParticipantHandler regKickW [] "SESSE" "p1" =
        KickResult.kickedOk reg' ("p1" :: [])
          ((if ({ pW1 with socketId := some "sock1" } : Participant).socketId.isSome
              then [Event.kickedNotice] else []) ++
            [Event.participantKicked "p1"
              ({ pW1 with socketId := some "sock1" } : Participant).name
              s'.participants.length]) ∧
      reg' = setAssoc regKickW "SESSE" s' ∧
      List.lookup "SESSE" reg' = some s' ∧
      List.lookup "p1" s'.participants = none ∧
      ("p1" :: []).contains "p1" = true ∧
      (participantJoin reg' ("p1" :: []) "p1" "SESSE" "sock9" 0).2 =
        [Event.kickedNotice, Event.clearParticipantId] ∧
      (¬(jsTrim "Ann" = "") →
        ¬(s'.quizState.isRunning = true ∧
          (s'.quiz.questions.length : ℤ) - 1 ≤ s'.quizState.currentQuestionIndex) →
        List.lookup "fresh1" s'.participants = none →
        ∃ s'', joinSession reg' "SESSE" "Ann" none "fresh1" =
            JoinResult.joined (setAssoc reg' "SESSE" s'') "fresh1" ∧
          List.lookup "fresh1" s''.participants = some
            { id := "fresh1", name := jsTrim "Ann", score := 0, correctCount := 0,
              answers := [], socketId := none }) :=
  ⟨by decide, by decide,
    kick_terminal_for_id_not_person regKickW [] "SESSE" "p1" "sock9" "Ann" "fresh1" 0
      sKickW { pW1 with socketId := some "sock1" } (by decide) (by decide)⟩

/-- Helper: bounds on the recomputed `timeRemaining = max(0, ceil((endTime - now)
/ 1000))` while the deadline has not passed: it is positive and at most the
original time limit. -/
theorem timeRemaining_bounds (openT L now : ℕ) (h1 : openT ≤ now)
    (h2 : now < openT + L * 1000) :
    0 < (max 0 ⌈(((openT + L * 1000 : ℕ) : ℚ) - (now : ℚ)) / 1000⌉).toNat ∧
    (max 0 ⌈(((openT + L * 1000 : ℕ) : ℚ) - (now : ℚ)) / 1000⌉).toNat ≤ L := by
  have hq : (0 : ℚ) < ((openT + L * 1000 : ℕ) : ℚ) - (now : ℚ) := by
    have : (now : ℚ) < ((openT + L * 1000 : ℕ) : ℚ) := by exact_mod_cast h2
    linarith
  have hceil1 : 0 < ⌈(((openT + L * 1000 : ℕ) : ℚ) - (now : ℚ)) / 1000⌉ :=
    Int.ceil_pos.mpr (div_pos hq (by norm_num))
  have hle : (((openT + L * 1000 : ℕ) : ℚ) - (now : ℚ)) / 1000 ≤ (L : ℚ) := by
    rw [div_le_iff₀ (by norm_num : (0 : ℚ) < 1000)]
    have hcast : (openT : ℚ) ≤ (now : ℚ) := by exact_mod_cast h1
    push_cast
    linarith
  have hceil2 : ⌈(((openT + L * 1000 : ℕ) : ℚ) - (now : ℚ)) / 1000⌉ ≤ (L : ℤ) := by
    rw [Int.ceil_le]
    exact_mod_cast hle
  rw [max_eq_right hceil1.le]
  omega

/-- C7: resync on reconnection. A known, unkicked participant who reattaches while
the current question is open and before its deadline receives a `question_started`
resync for the same question with a positive time-remaining at most the original
limit; one who reattaches after the close receives the `question_ended` payload
carrying their own recorded answer (or none); one who reattaches while the session
has not started receives no question event. -/
theorem participantJoin_resync (reg : List (String × SessionState))
    (kicked : List String) (pid code sid : String) (now : ℕ)
    (s : SessionState) (p : Participant)
    (hs : List.lookup code reg = some s)
    (hk : kicked.contains pid = false)
    (hp : List.lookup pid s.participants = some p) :
    (∀ q openT,
      s.quizState.isRunning = true →
      0 ≤ s.quizState.currentQuestionIndex →
      s.quiz.questions[s.quizState.currentQuestionIndex.toNat]? = some q →
      s.quizState.showingResults = false →
      s.quizState.questionEndTime = some (openT + q.timeLimit * 1000) →
      openT ≤ now → now < openT + q.timeLimit * 1000 →
      ∃ tr, (participantJoin reg kicked pid code sid now).2 =
          [Event.questionStartedParticipants (getQuestionForParticipants q) tr
            (s.quizState.currentQuestionIndex.toNat + 1) s.quiz.questions.length] ∧
        0 < tr ∧ tr ≤ q.timeLimit) ∧
    (∀ q,
      s.quizState.isRunning = true →
      0 ≤ s.quizState.currentQuestionIndex →
      s.quiz.questions[s.quizState.currentQuestionIndex.toNat]? = some q →
      s.quizState.showingResults = true →
      (participantJoin reg kicked pid code sid now).2 =
        [Event.questionEndedResync q.id q.correctIndices
          (calculateStats (attachSocket s pid sid) q.id)
          (List.lookup q.id p.answers)]) ∧
    (s.quizState.isRunning = false →
      (participantJoin reg kicked pid code sid now).2 = []) := by
  have ha : attachSocket s pid sid =
      { s with participants :=
          setAssoc s.participants pid { p with socketId := some sid } } := by
    simp [attachSocket, hp]
  refine ⟨?_, ?_, ?_⟩
  · intro q openT hrun hidx hq hshow het h1 h2
    refine ⟨(max 0 ⌈(((openT + q.timeLimit * 1000 : ℕ) : ℚ) - (now : ℚ)) / 1000⌉).toNat,
      ?_, (timeRemaining_bounds openT q.timeLimit now h1 h2).1,
      (timeRemaining_bounds openT q.timeLimit now h1 h2).2⟩
    simp only [participantJoin, hs, hk, hp, ha, Bool.false_eq_true, if_false]
    rw [if_pos ⟨hrun, hidx⟩]
    simp only [hq, het, hshow, Bool.false_eq_true, if_false, endTimeValue]
    rw [if_pos (timeRemaining_bounds openT q.timeLimit now h1 h2).1]
  · intro q hrun hidx hq hshow
    simp only [participantJoin, hs, hk, hp, ha, Bool.false_eq_true, if_false]
    rw [if_pos ⟨hrun, hidx⟩]
    simp only [hq, hshow, if_true]
  · intro hrun
    simp only [participantJoin, hs, hk, hp, ha, Bool.false_eq_true, if_false]
    rw [if_neg (fun hc => by rw [hrun] at hc; exact absurd hc.1 (by simp))]

/-- C7 witness: resync behaviour for a concrete participant of `sMidW`. -/
theorem participantJoin_resync_witness :
    List.lookup "SESSD" regMidW = some sMidW ∧
    ([] : List String).contains "p1" = false ∧
    List.lookup "p1" sMidW.participants = some pW1 ∧
    ((∀ q openT,
      sMidW.quizState.isRunning = true →
      0 ≤ sMidW.quizState.currentQuestionIndex →
      sMidW.quiz.questions[sMidW.quizState.currentQuestionIndex.toNat]? = some q →
      sMidW.quizState.showingResults = false →
      sMidW.quizState.questionEndTime = some (openT + q.timeLimit * 1000) →
      openT ≤ 5000 → 5000 < openT + q.timeLimit * 1000 →
      ∃ tr, (participantJoin regMidW [] "p1" "SESSD" "sock5" 5000).2 =
          [Event.questionStartedParticipants (getQuestionForParticipants q) tr
            (sMidW.quizState.currentQuestionIndex.toNat + 1)
            sMidW.quiz.questions.length] ∧
        0 < tr ∧ tr ≤ q.timeLimit) ∧
    (∀ q,
      sMidW.quizState.isRunning = true →
      0 ≤ sMidW.quizState.currentQuestionIndex →
      sMidW.quiz.questions[sMidW.quizState.currentQuestionIndex.toNat]? = some q →
      sMidW.quizState.showingResults = true →
      (participantJoin regMidW [] "p1" "SESSD" "sock5" 5000).2 =
        [Event.questionEndedResync q.id q.correctIndices
          (calculateStats (attachSocket sMidW "p1" "sock5") q.id)
          (List.lookup q.id pW1.answers)]) ∧
    (sMidW.quizState.isRunning = false →
      (participantJoin regMidW [] "p1" "SESSD" "sock5" 5000).2 = [])) :=
  ⟨by decide, by decide, by decide,
    participantJoin_resync regMidW [] "p1" "SESSD" "sock5" 5000 sMidW pW1
      (by decide) (by decide) (by decide)⟩

/-- C9: the handler performs no range validation on the submitted option index.
For an open question, a submission whose index is at least the number of options
passes every precondition and is recorded verbatim; it is counted in the
question's `totalAnswered`; it is recorded as not correct in the answer-record
handed to the database (given the quiz invariant that `correctIndices` is
in-range) and never increments `correctCount` at question close; and the
per-option counts array built by `calculateStats` grows beyond the question's
option count, up to index `answerIndex`. -/
theorem submitAnswer_no_range_validation (reg : List (String × SessionState))
    (pid code : String) (qid ai now : ℕ) (s : SessionState) (p : Participant)
    (q : Question)
    (hs : List.lookup code reg = some s)
    (hp : List.lookup pid s.participants = some p)
    (hrun : s.quizState.isRunning = true)
    (hshow : s.quizState.showingResults = false)
    (hf : findQuestion s.quiz.questions qid = some q)
    (hnoans : List.lookup qid p.answers = none)
    (htime : now ≤ endTimeValue s.quizState.questionEndTime)
    (hrange : q.options.length ≤ ai)
    (hcorrB : ∀ c ∈ q.correctIndices, c < q.options.length)
    (hnd : (s.participants.map Prod.fst).Nodup)
    (hidx : 0 ≤ s.quizState.currentQuestionIndex)
    (hcur : s.quiz.questions[s.quizState.currentQuestionIndex.toNat]? = some q) :
    ∃ s' evts p',
      submitAnswer reg pid code qid ai now = SubmitResult.recorded s' evts ∧
      List.lookup pid s'.participants = some p' ∧
      List.lookup qid p'.answers = some ai ∧
      p'.correctCount = p.correctCount ∧
      (∃ rt, evts.head? = some (Event.dbRecordAnswer s.id pid
        s.quizState.currentQuestionIndex ai false rt)) ∧
      (∃ st st', calculateStats s qid = some st ∧ calculateStats s' qid = some st' ∧
        st'.totalAnswered = st.totalAnswered + 1 ∧
        ai + 1 ≤ st'.counts.length ∧ q.options.length < st'.counts.length) ∧
      (∃ p'', List.lookup pid (endCurrentQuestion s').1.participants = some p'' ∧
        p''.correctCount = p.correctCount) := by
  have hmem : ai ∉ q.correctIndices := fun hm => absurd (hcorrB ai hm) (not_lt.mpr hrange)
  have hcont : q.correctIndices.contains ai = false := by simpa using hmem
  have hqid : q.id = qid := by
    have hf' : List.find? (fun q' => q'.id == qid) s.quiz.questions = some q := hf
    have hbeq := List.find?_some hf'
    exact beq_iff_eq.mp hbeq
  have hsub : submitAnswer reg pid code qid ai now = SubmitResult.recorded
      { s with participants :=
          setAssoc s.participants pid { p with answers := (qid, ai) :: p.answers } }
      [Event.dbRecordAnswer s.id pid s.quizState.currentQuestionIndex ai false
         (s.questionStartTime.map (fun st => (now : ℤ) - (st : ℤ))),
       Event.answerReceived pid p.name qid
         ((setAssoc s.participants pid
            { p with answers := (qid, ai) :: p.answers }).countP
              (fun kv => (List.lookup qid kv.2.answers).isSome))
         (setAssoc s.participants pid
            { p with answers := (qid, ai) :: p.answers }).length,
       Event.answerConfirmed qid ai] := by
    simp [submitAnswer, hs, hp, hrun, hshow, hf, hnoans, not_lt.mpr htime, hcont, hmem]
  refine ⟨_, _, { p with answers := (qid, ai) :: p.answers }, hsub,
    lookup_setAssoc pid _ p s.participants hp, by simp [List.lookup], rfl,
    ⟨_, rfl⟩, ?_, ?_⟩
  · refine ⟨statsOf s.participants q qid,
      statsOf (setAssoc s.participants pid
        { p with answers := (qid, ai) :: p.answers }) q qid,
      ?_, ?_, ?_, ?_, ?_⟩
    · simp [calculateStats, hf]
    · simp [calculateStats, hf]
    · simp only [statsOf]
      have e1 := statsFold_count qid s.participants (q.options.map (fun _ => some 0), 0)
      have e2 := statsFold_count qid
        (setAssoc s.participants pid { p with answers := (qid, ai) :: p.answers })
        (q.options.map (fun _ => some 0), 0)
      have e3 := countP_setAssoc_incr pid p
        { p with answers := (qid, ai) :: p.answers }
        (fun part => (List.lookup qid part.answers).isSome) s.participants hnd hp
        (by simp [hnoans]) (by simp [List.lookup])
      simp only [] at e3
      omega
    · simp only [statsOf]
      exact statsFold_len_ge qid _ _
        (pid, { p with answers := (qid, ai) :: p.answers }) ai
        (mem_setAssoc_self pid _ p s.participants hp) (by simp [List.lookup])
    · simp only [statsOf]
      have := statsFold_len_ge qid
        (setAssoc s.participants pid { p with answers := (qid, ai) :: p.answers })
        (q.options.map (fun _ => some 0), 0)
        (pid, { p with answers := (qid, ai) :: p.answers }) ai
        (mem_setAssoc_self pid _ p s.participants hp) (by simp [List.lookup])
      omega
  · refine ⟨{ p with answers := (qid, ai) :: p.answers }, ?_, rfl⟩
    have hmap :
        (endCurrentQuestion
            { s with participants :=
                setAssoc s.participants pid { p with answers := (qid, ai) :: p.answers } }).1.participants =
          (setAssoc s.participants pid
            { p with answers := (qid, ai) :: p.answers }).map
            (fun kv => (kv.1, scoreUpdate q kv.2)) := by
      simp [endCurrentQuestion, not_lt.mpr hidx, hshow, hcur]
    rw [hmap, lookup_map_snd (scoreUpdate q) pid _,
      lookup_setAssoc pid _ p s.participants hp]
    simp [scoreUpdate, hqid, List.lookup, hcont, hmem]

/-- C9 witness: submitting option index 5 for the open two-option question of
`sMidW` is recorded, counted, scored as not correct, and stretches the counts
array. -/
theorem submitAnswer_no_range_validation_witness :
    (List.lookup "SESSD" regMidW = some sMidW ∧
     List.lookup "p1" sMidW.participants = some pW1 ∧
     sMidW.quizState.isRunning = true ∧
     sMidW.quizState.showingResults = false ∧
     findQuestion sMidW.quiz.questions 1 = some qW1 ∧
     List.lookup 1 pW1.answers = none ∧
     1000 ≤ endTimeValue sMidW.quizState.questionEndTime ∧
     qW1.options.length ≤ 5 ∧
     (∀ c ∈ qW1.correctIndices, c < qW1.options.length) ∧
     (sMidW.participants.map Prod.fst).Nodup ∧
     0 ≤ sMidW.quizState.currentQuestionIndex ∧
     sMidW.quiz.questions[sMidW.quizState.currentQuestionIndex.toNat]? = some qW1) ∧
    (∃ s' evts p',
      submitAnswer regMidW "p1" "SESSD" 1 5 1000 = SubmitResult.recorded s' evts ∧
      List.lookup "p1" s'.participants = some p' ∧
      List.lookup 1 p'.answers = some 5 ∧
      p'.correctCount = pW1.correctCount ∧
      (∃ rt, evts.head? = some (Event.dbRecordAnswer sMidW.id "p1"
        sMidW.quizState.currentQuestionIndex 5 false rt)) ∧
      (∃ st st', calculateStats sMidW 1 = some st ∧ calculateStats s' 1 = some st' ∧
        st'.totalAnswered = st.totalAnswered + 1 ∧
        5 + 1 ≤ st'.counts.length ∧ qW1.options.length < st'.counts.length) ∧
      (∃ p'', List.lookup "p1" (endCurrentQuestion s').1.participants = some p'' ∧
        p''.correctCount = pW1.correctCount)) :=
  ⟨by decide,
    submitAnswer_no_range_validation regMidW "p1" "SESSD" 1 5 1000 sMidW pW1 qW1
      (by decide) (by decide) (by decide) (by decide) (by decide) (by decide)
      (by decide) (by decide) (by decide) (by decide) (by decide) (by decide)⟩

end MarkdownMash
